import Mathlib

/-!
Verification of the multi-core security boundary subsystem and the MPS4
power-control helpers of trusted-firmware-m.

Part 1 models `platform/ext/target/arm/mps4/common/device/include/power_control.h`:
registers are 32-bit words modelled as `Nat`, the C bitwise complement
`~msk` on a 32-bit unsigned value is `0xFFFFFFFF ^^^ msk`, and each
`PD_*_SET_MIN_PWR_STATE` helper performs the read-modify-write
`reg = (reg & ~Msk) | ((state << Pos) & Msk)` of the source.

Part 2 models the contracts of `tfm_multi_core.h`.  Only the header is in
the provided sources, so the function bodies are modelled from the spec
(each such definition is marked `Modelled from the spec:`); the value-level
constants (the `MEM_CHECK_*` flags and `CLIENT_ID_OWNER_MAGIC`) are taken
directly from the header.
-/

/-! ## Part 1: power_control.h -/

/-- PDCM_PD_SENSE: MIN_PWR_STATE position (source line 38). -/
def PDCM_PD_SENSE_MIN_PWR_STATE_Pos : Nat := 30

/-- PDCM_PD_SENSE: MIN_PWR_STATE mask `3UL << 30` (source lines 40-41). -/
def PDCM_PD_SENSE_MIN_PWR_STATE_Msk : Nat := 3 <<< PDCM_PD_SENSE_MIN_PWR_STATE_Pos

/-- CPUPWRCFG: TCM_MIN_PWR_STATE position (source line 44). -/
def CPUPWRCFG_TCM_MIN_PWR_STATE_Pos : Nat := 4

/-- CPUPWRCFG: TCM_MIN_PWR_STATE mask `1UL << 4` (source lines 46-47). -/
def CPUPWRCFG_TCM_MIN_PWR_STATE_Msk : Nat := 1 <<< CPUPWRCFG_TCM_MIN_PWR_STATE_Pos

/-- enum PDCM_MIN_PWR_STATES: OFF = 0. -/
def PDCM_MIN_PWR_STATE_OFF : Nat := 0

/-- enum PDCM_MIN_PWR_STATES: RET = 1. -/
def PDCM_MIN_PWR_STATE_RET : Nat := 1

/-- enum PDCM_MIN_PWR_STATES: ON = 2. -/
def PDCM_MIN_PWR_STATE_ON : Nat := 2

/-- The three PDCM sense registers of `mps4_corstone3xx_sysctrl_t` that the
`BR_SYS_*` helpers touch. -/
structure SysCtrlState where
  pdcm_pd_sys_sense : Nat
  pdcm_pd_vmr0_sense : Nat
  pdcm_pd_vmr1_sense : Nat
deriving DecidableEq

/-- 32-bit bitwise complement, as C computes `~msk` on a `uint32_t`. -/
def not32 (msk : Nat) : Nat := 0xFFFFFFFF ^^^ msk

/-- `PD_SYS_SET_MIN_PWR_STATE` (source lines 79-86). -/
def PD_SYS_SET_MIN_PWR_STATE (s : SysCtrlState) (min_pwr_state : Nat) : SysCtrlState :=
  { s with pdcm_pd_sys_sense :=
      (s.pdcm_pd_sys_sense &&& not32 PDCM_PD_SENSE_MIN_PWR_STATE_Msk) |||
      ((min_pwr_state <<< PDCM_PD_SENSE_MIN_PWR_STATE_Pos) &&&
        PDCM_PD_SENSE_MIN_PWR_STATE_Msk) }

/-- `PD_VMR0_SET_MIN_PWR_STATE` (source lines 61-68). -/
def PD_VMR0_SET_MIN_PWR_STATE (s : SysCtrlState) (min_pwr_state : Nat) : SysCtrlState :=
  { s with pdcm_pd_vmr0_sense :=
      (s.pdcm_pd_vmr0_sense &&& not32 PDCM_PD_SENSE_MIN_PWR_STATE_Msk) |||
      ((min_pwr_state <<< PDCM_PD_SENSE_MIN_PWR_STATE_Pos) &&&
        PDCM_PD_SENSE_MIN_PWR_STATE_Msk) }

/-- `PD_VMR1_SET_MIN_PWR_STATE` (source lines 70-77). -/
def PD_VMR1_SET_MIN_PWR_STATE (s : SysCtrlState) (min_pwr_state : Nat) : SysCtrlState :=
  { s with pdcm_pd_vmr1_sense :=
      (s.pdcm_pd_vmr1_sense &&& not32 PDCM_PD_SENSE_MIN_PWR_STATE_Msk) |||
      ((min_pwr_state <<< PDCM_PD_SENSE_MIN_PWR_STATE_Pos) &&&
        PDCM_PD_SENSE_MIN_PWR_STATE_Msk) }

/-- `PD_CPU0_TCM_SET_MIN_PWR_STATE` (source lines 88-95): read-modify-write of
`pwrctrl->cpupwrcfg`, modelled as a function on the register value. -/
def PD_CPU0_TCM_SET_MIN_PWR_STATE (cpupwrcfg : Nat) (min_pwr_state : Nat) : Nat :=
  (cpupwrcfg &&& not32 CPUPWRCFG_TCM_MIN_PWR_STATE_Msk) |||
  ((min_pwr_state <<< CPUPWRCFG_TCM_MIN_PWR_STATE_Pos) &&&
    CPUPWRCFG_TCM_MIN_PWR_STATE_Msk)

/-- `BR_SYS_SET_MIN_PWR_STATE_OFF` (source lines 141-146). -/
def BR_SYS_SET_MIN_PWR_STATE_OFF (s : SysCtrlState) : SysCtrlState :=
  PD_VMR1_SET_MIN_PWR_STATE
    (PD_VMR0_SET_MIN_PWR_STATE
      (PD_SYS_SET_MIN_PWR_STATE s PDCM_MIN_PWR_STATE_OFF)
      PDCM_MIN_PWR_STATE_OFF)
    PDCM_MIN_PWR_STATE_OFF

/-- `BR_SYS_SET_MIN_PWR_STATE_MEM_RET_OPMODE0` (source lines 148-153). -/
def BR_SYS_SET_MIN_PWR_STATE_MEM_RET_OPMODE0 (s : SysCtrlState) : SysCtrlState :=
  PD_VMR1_SET_MIN_PWR_STATE
    (PD_VMR0_SET_MIN_PWR_STATE
      (PD_SYS_SET_MIN_PWR_STATE s PDCM_MIN_PWR_STATE_OFF)
      PDCM_MIN_PWR_STATE_OFF)
    PDCM_MIN_PWR_STATE_OFF

/-- Reading back the masked field of a masked read-modify-write update. -/
lemma update_and_msk (x v m : Nat) (h : not32 m &&& m = 0) :
    ((x &&& not32 m) ||| (v &&& m)) &&& m = v &&& m := by
  rw [Nat.and_distrib_right, Nat.and_assoc, h, Nat.and_zero, Nat.zero_or,
    Nat.and_assoc, Nat.and_self]

/-- A masked read-modify-write update leaves the bits outside the mask alone. -/
lemma update_and_not_msk (x v m : Nat) (h : m &&& not32 m = 0) :
    ((x &&& not32 m) ||| (v &&& m)) &&& not32 m = x &&& not32 m := by
  rw [Nat.and_distrib_right, Nat.and_assoc, Nat.and_self, Nat.and_assoc, h,
    Nat.and_zero, Nat.or_zero]

/-- Claim C9: for every initial value of `pwrctrl->cpupwrcfg`, calling
`PD_CPU0_TCM_SET_MIN_PWR_STATE` with `PDCM_MIN_PWR_STATE_ON` produces exactly
the same final register value as calling it with `PDCM_MIN_PWR_STATE_OFF`,
because the one-bit mask `CPUPWRCFG_TCM_MIN_PWR_STATE_Msk` truncates the
encoded value 2 to 0; among the three enum values only
`PDCM_MIN_PWR_STATE_RET` sets the masked bit. -/
theorem c9_tcm_min_pwr_state_on_eq_off :
    ∀ cpupwrcfg : Nat,
      PD_CPU0_TCM_SET_MIN_PWR_STATE cpupwrcfg PDCM_MIN_PWR_STATE_ON =
        PD_CPU0_TCM_SET_MIN_PWR_STATE cpupwrcfg PDCM_MIN_PWR_STATE_OFF ∧
      PD_CPU0_TCM_SET_MIN_PWR_STATE cpupwrcfg PDCM_MIN_PWR_STATE_ON &&&
          CPUPWRCFG_TCM_MIN_PWR_STATE_Msk = 0 ∧
      PD_CPU0_TCM_SET_MIN_PWR_STATE cpupwrcfg PDCM_MIN_PWR_STATE_OFF &&&
          CPUPWRCFG_TCM_MIN_PWR_STATE_Msk = 0 ∧
      PD_CPU0_TCM_SET_MIN_PWR_STATE cpupwrcfg PDCM_MIN_PWR_STATE_RET &&&
          CPUPWRCFG_TCM_MIN_PWR_STATE_Msk = CPUPWRCFG_TCM_MIN_PWR_STATE_Msk := by
  intro cfg
  refine ⟨?_, ?_, ?_, ?_⟩
  · show (cfg &&& not32 CPUPWRCFG_TCM_MIN_PWR_STATE_Msk) |||
        ((PDCM_MIN_PWR_STATE_ON <<< CPUPWRCFG_TCM_MIN_PWR_STATE_Pos) &&&
          CPUPWRCFG_TCM_MIN_PWR_STATE_Msk) = _
    rw [show (PDCM_MIN_PWR_STATE_ON <<< CPUPWRCFG_TCM_MIN_PWR_STATE_Pos) &&&
          CPUPWRCFG_TCM_MIN_PWR_STATE_Msk =
        (PDCM_MIN_PWR_STATE_OFF <<< CPUPWRCFG_TCM_MIN_PWR_STATE_Pos) &&&
          CPUPWRCFG_TCM_MIN_PWR_STATE_Msk from by decide]
    rfl
  · rw [show PD_CPU0_TCM_SET_MIN_PWR_STATE cfg PDCM_MIN_PWR_STATE_ON =
        (cfg &&& not32 CPUPWRCFG_TCM_MIN_PWR_STATE_Msk) |||
        ((PDCM_MIN_PWR_STATE_ON <<< CPUPWRCFG_TCM_MIN_PWR_STATE_Pos) &&&
          CPUPWRCFG_TCM_MIN_PWR_STATE_Msk) from rfl,
      update_and_msk _ _ _ (by decide)]
    decide
  · rw [show PD_CPU0_TCM_SET_MIN_PWR_STATE cfg PDCM_MIN_PWR_STATE_OFF =
        (cfg &&& not32 CPUPWRCFG_TCM_MIN_PWR_STATE_Msk) |||
        ((PDCM_MIN_PWR_STATE_OFF <<< CPUPWRCFG_TCM_MIN_PWR_STATE_Pos) &&&
          CPUPWRCFG_TCM_MIN_PWR_STATE_Msk) from rfl,
      update_and_msk _ _ _ (by decide)]
    decide
  · rw [show PD_CPU0_TCM_SET_MIN_PWR_STATE cfg PDCM_MIN_PWR_STATE_RET =
        (cfg &&& not32 CPUPWRCFG_TCM_MIN_PWR_STATE_Msk) |||
        ((PDCM_MIN_PWR_STATE_RET <<< CPUPWRCFG_TCM_MIN_PWR_STATE_Pos) &&&
          CPUPWRCFG_TCM_MIN_PWR_STATE_Msk) from rfl,
      update_and_msk _ _ _ (by decide)]
    decide

/-- Claim C10: `BR_SYS_SET_MIN_PWR_STATE_OFF` and
`BR_SYS_SET_MIN_PWR_STATE_MEM_RET_OPMODE0` are extensionally equal: from any
state of the three sysctrl sense registers both produce identical final
states, write `PDCM_MIN_PWR_STATE_OFF` (= 0) into the `MIN_PWR_STATE` field of
`pdcm_pd_sys_sense`, `pdcm_pd_vmr0_sense` and `pdcm_pd_vmr1_sense`, and leave
every bit outside `PDCM_PD_SENSE_MIN_PWR_STATE_Msk` unchanged. -/
theorem c10_br_sys_off_eq_mem_ret_opmode0 :
    ∀ s : SysCtrlState,
      BR_SYS_SET_MIN_PWR_STATE_OFF s = BR_SYS_SET_MIN_PWR_STATE_MEM_RET_OPMODE0 s ∧
      (BR_SYS_SET_MIN_PWR_STATE_OFF s).pdcm_pd_sys_sense &&&
          PDCM_PD_SENSE_MIN_PWR_STATE_Msk =
        PDCM_MIN_PWR_STATE_OFF <<< PDCM_PD_SENSE_MIN_PWR_STATE_Pos ∧
      (BR_SYS_SET_MIN_PWR_STATE_OFF s).pdcm_pd_vmr0_sense &&&
          PDCM_PD_SENSE_MIN_PWR_STATE_Msk =
        PDCM_MIN_PWR_STATE_OFF <<< PDCM_PD_SENSE_MIN_PWR_STATE_Pos ∧
      (BR_SYS_SET_MIN_PWR_STATE_OFF s).pdcm_pd_vmr1_sense &&&
          PDCM_PD_SENSE_MIN_PWR_STATE_Msk =
        PDCM_MIN_PWR_STATE_OFF <<< PDCM_PD_SENSE_MIN_PWR_STATE_Pos ∧
      (BR_SYS_SET_MIN_PWR_STATE_OFF s).pdcm_pd_sys_sense &&&
          not32 PDCM_PD_SENSE_MIN_PWR_STATE_Msk =
        s.pdcm_pd_sys_sense &&& not32 PDCM_PD_SENSE_MIN_PWR_STATE_Msk ∧
      (BR_SYS_SET_MIN_PWR_STATE_OFF s).pdcm_pd_vmr0_sense &&&
          not32 PDCM_PD_SENSE_MIN_PWR_STATE_Msk =
        s.pdcm_pd_vmr0_sense &&& not32 PDCM_PD_SENSE_MIN_PWR_STATE_Msk ∧
      (BR_SYS_SET_MIN_PWR_STATE_OFF s).pdcm_pd_vmr1_sense &&&
          not32 PDCM_PD_SENSE_MIN_PWR_STATE_Msk =
        s.pdcm_pd_vmr1_sense &&& not32 PDCM_PD_SENSE_MIN_PWR_STATE_Msk := by
  intro s
  refine ⟨rfl, ?_, ?_, ?_, ?_, ?_, ?_⟩
  · rw [show (BR_SYS_SET_MIN_PWR_STATE_OFF s).pdcm_pd_sys_sense =
        (s.pdcm_pd_sys_sense &&& not32 PDCM_PD_SENSE_MIN_PWR_STATE_Msk) |||
        ((PDCM_MIN_PWR_STATE_OFF <<< PDCM_PD_SENSE_MIN_PWR_STATE_Pos) &&&
          PDCM_PD_SENSE_MIN_PWR_STATE_Msk) from rfl,
      update_and_msk _ _ _ (by decide)]
    decide
  · rw [show (BR_SYS_SET_MIN_PWR_STATE_OFF s).pdcm_pd_vmr0_sense =
        (s.pdcm_pd_vmr0_sense &&& not32 PDCM_PD_SENSE_MIN_PWR_STATE_Msk) |||
        ((PDCM_MIN_PWR_STATE_OFF <<< PDCM_PD_SENSE_MIN_PWR_STATE_Pos) &&&
          PDCM_PD_SENSE_MIN_PWR_STATE_Msk) from rfl,
      update_and_msk _ _ _ (by decide)]
    decide
  · rw [show (BR_SYS_SET_MIN_PWR_STATE_OFF s).pdcm_pd_vmr1_sense =
        (s.pdcm_pd_vmr1_sense &&& not32 PDCM_PD_SENSE_MIN_PWR_STATE_Msk) |||
        ((PDCM_MIN_PWR_STATE_OFF <<< PDCM_PD_SENSE_MIN_PWR_STATE_Pos) &&&
          PDCM_PD_SENSE_MIN_PWR_STATE_Msk) from rfl,
      update_and_msk _ _ _ (by decide)]
    decide
  · rw [show (BR_SYS_SET_MIN_PWR_STATE_OFF s).pdcm_pd_sys_sense =
        (s.pdcm_pd_sys_sense &&& not32 PDCM_PD_SENSE_MIN_PWR_STATE_Msk) |||
        ((PDCM_MIN_PWR_STATE_OFF <<< PDCM_PD_SENSE_MIN_PWR_STATE_Pos) &&&
          PDCM_PD_SENSE_MIN_PWR_STATE_Msk) from rfl,
      update_and_not_msk _ _ _ (by decide)]
  · rw [show (BR_SYS_SET_MIN_PWR_STATE_OFF s).pdcm_pd_vmr0_sense =
        (s.pdcm_pd_vmr0_sense &&& not32 PDCM_PD_SENSE_MIN_PWR_STATE_Msk) |||
        ((PDCM_MIN_PWR_STATE_OFF <<< PDCM_PD_SENSE_MIN_PWR_STATE_Pos) &&&
          PDCM_PD_SENSE_MIN_PWR_STATE_Msk) from rfl,
      update_and_not_msk _ _ _ (by decide)]
  · rw [show (BR_SYS_SET_MIN_PWR_STATE_OFF s).pdcm_pd_vmr1_sense =
        (s.pdcm_pd_vmr1_sense &&& not32 PDCM_PD_SENSE_MIN_PWR_STATE_Msk) |||
        ((PDCM_MIN_PWR_STATE_OFF <<< PDCM_PD_SENSE_MIN_PWR_STATE_Pos) &&&
          PDCM_PD_SENSE_MIN_PWR_STATE_Msk) from rfl,
      update_and_not_msk _ _ _ (by decide)]

/-! ## Part 2: tfm_multi_core.h — memory access checks

The header declares the functions and fixes the `MEM_CHECK_*` flag encoding
and the result contract (`SPM_SUCCESS` if the access is allowed,
`SPM_ERROR_GENERIC` otherwise); the bodies are not in the provided sources
and are modelled from the spec. -/

/-- `MEM_CHECK_MPU_READWRITE` (header line 16): `1 << 0x0`. -/
def MEM_CHECK_MPU_READWRITE : Nat := 1 <<< 0x0

/-- `MEM_CHECK_AU_NONSECURE` (header line 17): `1 << 0x1`. -/
def MEM_CHECK_AU_NONSECURE : Nat := 1 <<< 0x1

/-- `MEM_CHECK_MPU_UNPRIV` (header line 18): `1 << 0x2`. -/
def MEM_CHECK_MPU_UNPRIV : Nat := 1 <<< 0x2

/-- `MEM_CHECK_MPU_READ` (header line 19): `1 << 0x3`. -/
def MEM_CHECK_MPU_READ : Nat := 1 <<< 0x3

/-- `MEM_CHECK_MPU_NONSECURE` (header line 20): `1 << 0x4`. -/
def MEM_CHECK_MPU_NONSECURE : Nat := 1 <<< 0x4

/-- `MEM_CHECK_NONSECURE` (header lines 21-22):
`MEM_CHECK_AU_NONSECURE | MEM_CHECK_MPU_NONSECURE`. -/
def MEM_CHECK_NONSECURE : Nat := MEM_CHECK_AU_NONSECURE ||| MEM_CHECK_MPU_NONSECURE

/-- The small closed result enumeration of the spec:
{Success, GenericError, BadParameters}. -/
inductive SpmResult where
  | success
  | errorGeneric
  | errorBadParameters
deriving DecidableEq

/-- `struct security_attr_info_t` (header lines 27-30). -/
structure SecurityAttrInfo where
  is_valid : Bool
  is_secure : Bool
deriving DecidableEq

/-- `struct mem_attr_info_t` (header lines 33-41). -/
structure MemAttrInfo where
  is_mpu_enabled : Bool
  is_valid : Bool
  is_xn : Bool
  is_priv_rd_allow : Bool
  is_priv_wr_allow : Bool
  is_unpriv_rd_allow : Bool
  is_unpriv_wr_allow : Bool
deriving DecidableEq

/-- Modelled from the spec (§3 MemoryRegion): an entry of the static
security-classification layout table, tagged secure or non-secure at
configuration time.  `limit = base + size`. -/
structure SecRegion where
  base : Nat
  size : Nat
  isSecure : Bool
deriving DecidableEq

/-- Derived region limit (spec §3). -/
def SecRegion.limit (r : SecRegion) : Nat := r.base + r.size

/-- Modelled from the spec (§4.1, §3): a range `[p, p+s)` matches a region
only if fully contained in it (`base <= p` and `p + s <= limit`); zero-size
regions and zero-size ranges are rejected as invalid by convention. -/
def regionMatch (p s : Nat) (r : SecRegion) : Bool :=
  decide (0 < r.size ∧ 0 < s ∧ r.base ≤ p ∧ p + s ≤ r.limit)

/-- Modelled from the spec (§4.1): `tfm_get_mem_region_security_attr` —
the body is absent from the provided sources.  Walks the static table; on a
full-containment match `is_valid = true` and `is_secure` is the region's
static tag, otherwise `is_valid = false`. -/
def tfm_get_mem_region_security_attr (tbl : List SecRegion) (p s : Nat) :
    SecurityAttrInfo :=
  match tbl.find? (regionMatch p s) with
  | some r => { is_valid := true, is_secure := r.isSecure }
  | none => { is_valid := false, is_secure := false }

/-- Modelled from the spec (§4.2, §3): an entry of a static permission table
of one of the attribute resolvers. -/
structure PermRegion where
  base : Nat
  size : Nat
  isXN : Bool
  privRd : Bool
  privWr : Bool
  unprivRd : Bool
  unprivWr : Bool
deriving DecidableEq

/-- Derived permission-region limit. -/
def PermRegion.limit (r : PermRegion) : Nat := r.base + r.size

/-- Full containment of `[p, p+s)` in a permission region, with the same
zero-size conventions as `regionMatch`. -/
def permMatch (p s : Nat) (r : PermRegion) : Bool :=
  decide (0 < r.size ∧ 0 < s ∧ r.base ≤ p ∧ p + s ≤ r.limit)

/-- Modelled from the spec (§4.2): the shared shape of the two attribute
resolvers; `is_mpu_enabled` is fixed false, an unmatched range yields
`is_valid = false` with non-permissive fields. -/
def resolveAttr (tbl : List PermRegion) (p s : Nat) : MemAttrInfo :=
  match tbl.find? (permMatch p s) with
  | some r =>
      { is_mpu_enabled := false, is_valid := true, is_xn := r.isXN,
        is_priv_rd_allow := r.privRd, is_priv_wr_allow := r.privWr,
        is_unpriv_rd_allow := r.unprivRd, is_unpriv_wr_allow := r.unprivWr }
  | none =>
      { is_mpu_enabled := false, is_valid := false, is_xn := true,
        is_priv_rd_allow := false, is_priv_wr_allow := false,
        is_unpriv_rd_allow := false, is_unpriv_wr_allow := false }

/-- The build-time-fixed layout configuration: the security classification
table and the secure / non-secure permission tables (spec §9 design note). -/
structure MemLayout where
  secMap : List SecRegion
  sPerm : List PermRegion
  nsPerm : List PermRegion
deriving DecidableEq

/-- Modelled from the spec (§4.2): `tfm_get_secure_mem_region_attr`. -/
def tfm_get_secure_mem_region_attr (L : MemLayout) (p s : Nat) : MemAttrInfo :=
  resolveAttr L.sPerm p s

/-- Modelled from the spec (§4.2): `tfm_get_ns_mem_region_attr`. -/
def tfm_get_ns_mem_region_attr (L : MemLayout) (p s : Nat) : MemAttrInfo :=
  resolveAttr L.nsPerm p s

/-- True when `flags` has any bit of `f` set. -/
def hasFlag (flags f : Nat) : Bool := flags &&& f != 0

/-- Modelled from the spec (§4.3 step 3): the read capability consulted for
the privilege level requested by `flags`. -/
def permRd (attr : MemAttrInfo) (flags : Nat) : Bool :=
  if hasFlag flags MEM_CHECK_MPU_UNPRIV then attr.is_unpriv_rd_allow
  else attr.is_priv_rd_allow

/-- Modelled from the spec (§4.3 step 3): the write capability consulted for
the privilege level requested by `flags`. -/
def permWr (attr : MemAttrInfo) (flags : Nat) : Bool :=
  if hasFlag flags MEM_CHECK_MPU_UNPRIV then attr.is_unpriv_wr_allow
  else attr.is_priv_wr_allow

/-- Modelled from the spec (§4.3 steps 3-4): every requested permission bit
must be backed by the corresponding resolved capability. -/
def permCheck (attr : MemAttrInfo) (flags : Nat) : Bool :=
  (if hasFlag flags MEM_CHECK_MPU_READWRITE then permRd attr flags && permWr attr flags
   else true) &&
  (if hasFlag flags MEM_CHECK_MPU_READ then permRd attr flags else true)

/-- Modelled from the spec (§4.3): `tfm_has_access_to_region` — the body is
absent from the provided sources.  If a non-secure check is requested the
range is classified and must be valid non-secure memory; then the matching
attribute resolver must find the range valid and `permCheck` must pass.  Per
the header contract (lines 93-104) the result is `SPM_SUCCESS` if the access
is allowed and `SPM_ERROR_GENERIC` otherwise. -/
def tfm_has_access_to_region (L : MemLayout) (p s flags : Nat) : SpmResult :=
  if hasFlag flags MEM_CHECK_AU_NONSECURE || hasFlag flags MEM_CHECK_MPU_NONSECURE then
    if (tfm_get_mem_region_security_attr L.secMap p s).is_valid = false then
      .errorGeneric
    else if (tfm_get_mem_region_security_attr L.secMap p s).is_secure = true then
      .errorGeneric
    else if (tfm_get_ns_mem_region_attr L p s).is_valid = false then .errorGeneric
    else if permCheck (tfm_get_ns_mem_region_attr L p s) flags = true then .success
    else .errorGeneric
  else
    if (tfm_get_secure_mem_region_attr L p s).is_valid = false then .errorGeneric
    else if permCheck (tfm_get_secure_mem_region_attr L p s) flags = true then .success
    else .errorGeneric

/-- Two regions are disjoint as half-open address spans (spec glossary:
regions are non-overlapping). -/
def secDisjoint (a b : SecRegion) : Prop := a.limit ≤ b.base ∨ b.limit ≤ a.base

/-- The range `[p, p+s)` meets the span of region `r`. -/
def overlapsRegion (p s : Nat) (r : SecRegion) : Prop :=
  p < r.limit ∧ r.base < p + s

instance (a b : SecRegion) : Decidable (secDisjoint a b) := by
  unfold secDisjoint; infer_instance

instance (p s : Nat) (r : SecRegion) : Decidable (overlapsRegion p s r) := by
  unfold overlapsRegion; infer_instance

lemma secDisjoint_symm : Symmetric secDisjoint := by
  intro a b h
  rcases h with h | h
  · exact Or.inr h
  · exact Or.inl h

/-- In a pairwise-disjoint table, a region containing a nonempty range is the
only region whose span the range meets. -/
lemma sec_eq_of_contain_meet {tbl : List SecRegion} (hdis : tbl.Pairwise secDisjoint)
    {a b : SecRegion} (ha : a ∈ tbl) (hb : b ∈ tbl) {p s : Nat}
    (h1 : a.base ≤ p) (h2 : p + s ≤ a.limit)
    (h3 : p < b.limit) (h4 : b.base < p + s) : a = b := by
  by_contra hne
  have hd := hdis.forall secDisjoint_symm ha hb hne
  rcases hd with hd | hd <;> omega

/-- Claim C2: for every region `R` of the static layout table and every
nonempty range `[p, p+s)` fully contained in `R`, the classifier returns
`is_valid = true` and `is_secure` equal to `R`'s static tag; for every range
meeting two distinct regions, or meeting no region at all, it returns
`is_valid = false`.  (Zero-size ranges are invalid by the spec's own
convention, hence the `0 < s` hypothesis in the containment part.) -/
theorem c2_classify_contained_and_spanning (tbl : List SecRegion)
    (hdis : tbl.Pairwise secDisjoint) :
    (∀ R ∈ tbl, ∀ p s : Nat, 0 < s → R.base ≤ p → p + s ≤ R.limit →
        (tfm_get_mem_region_security_attr tbl p s).is_valid = true ∧
        (tfm_get_mem_region_security_attr tbl p s).is_secure = R.isSecure) ∧
    (∀ p s : Nat, ∀ R1 R2 : SecRegion, R1 ∈ tbl → R2 ∈ tbl → R1 ≠ R2 →
        overlapsRegion p s R1 → overlapsRegion p s R2 →
        (tfm_get_mem_region_security_attr tbl p s).is_valid = false) ∧
    (∀ p s : Nat, (∀ R ∈ tbl, ¬ overlapsRegion p s R) →
        (tfm_get_mem_region_security_attr tbl p s).is_valid = false) := by
  refine ⟨?_, ?_, ?_⟩
  · intro R hR p s hs hbase hlimit
    have hsize : 0 < R.size := by
      have hl : R.limit = R.base + R.size := rfl
      omega
    have hm : regionMatch p s R = true := decide_eq_true ⟨hsize, hs, hbase, hlimit⟩
    cases hfind : tbl.find? (regionMatch p s) with
    | none =>
        rw [List.find?_eq_none] at hfind
        exact absurd hm (hfind R hR)
    | some R' =>
        have hm' : regionMatch p s R' = true := List.find?_some hfind
        have hmem' : R' ∈ tbl := List.mem_of_find?_eq_some hfind
        have hp' := of_decide_eq_true hm'
        obtain ⟨hsize', hs', hbase', hlimit'⟩ := hp'
        have hRR : R' = R := by
          refine sec_eq_of_contain_meet hdis hmem' hR hbase' hlimit' ?_ ?_
          · omega
          · omega
        unfold tfm_get_mem_region_security_attr
        rw [hfind, hRR]
        exact ⟨rfl, rfl⟩
  · intro p s R1 R2 hR1 hR2 hne hov1 hov2
    cases hfind : tbl.find? (regionMatch p s) with
    | none => unfold tfm_get_mem_region_security_attr; rw [hfind]
    | some R' =>
        exfalso
        have hm' : regionMatch p s R' = true := List.find?_some hfind
        have hmem' : R' ∈ tbl := List.mem_of_find?_eq_some hfind
        obtain ⟨hsize', hs', hbase', hlimit'⟩ := of_decide_eq_true hm'
        obtain ⟨hov1a, hov1b⟩ := hov1
        obtain ⟨hov2a, hov2b⟩ := hov2
        have he1 : R' = R1 :=
          sec_eq_of_contain_meet hdis hmem' hR1 hbase' hlimit' hov1a hov1b
        have he2 : R' = R2 :=
          sec_eq_of_contain_meet hdis hmem' hR2 hbase' hlimit' hov2a hov2b
        exact hne (he1 ▸ he2)
  · intro p s hnov
    cases hfind : tbl.find? (regionMatch p s) with
    | none => unfold tfm_get_mem_region_security_attr; rw [hfind]
    | some R' =>
        exfalso
        have hm' : regionMatch p s R' = true := List.find?_some hfind
        have hmem' : R' ∈ tbl := List.mem_of_find?_eq_some hfind
        obtain ⟨hsize', hs', hbase', hlimit'⟩ := of_decide_eq_true hm'
        refine hnov R' hmem' ⟨?_, ?_⟩
        · omega
        · omega

/-- A two-region demonstration table: a secure 4 KiB region followed by an
adjacent non-secure 4 KiB region (the boundary scenario of spec §8). -/
def demoSecTbl : List SecRegion :=
  [⟨0x20000000, 0x1000, true⟩, ⟨0x20001000, 0x1000, false⟩]

/-- Witness for C2 at the spec's boundary scenario: a contained range is
valid and secure, a range crossing the region limit into the next region is
invalid, and a range outside every region is invalid. -/
theorem c2_classify_contained_and_spanning_witness :
    (tfm_get_mem_region_security_attr demoSecTbl 0x20000000 0x800).is_valid = true ∧
    (tfm_get_mem_region_security_attr demoSecTbl 0x20000000 0x800).is_secure = true ∧
    (tfm_get_mem_region_security_attr demoSecTbl 0x20000F00 0x200).is_valid = false ∧
    (tfm_get_mem_region_security_attr demoSecTbl 0x30000000 0x100).is_valid = false := by
  have h := c2_classify_contained_and_spanning demoSecTbl (by decide)
  refine ⟨?_, ?_, ?_, ?_⟩
  · exact (h.1 ⟨0x20000000, 0x1000, true⟩ (by decide) 0x20000000 0x800 (by decide)
      (by decide) (by decide)).1
  · exact (h.1 ⟨0x20000000, 0x1000, true⟩ (by decide) 0x20000000 0x800 (by decide)
      (by decide) (by decide)).2
  · exact h.2.1 0x20000F00 0x200 ⟨0x20000000, 0x1000, true⟩ ⟨0x20001000, 0x1000, false⟩
      (by decide) (by decide) (by decide) (by decide) (by decide)
  · exact h.2.2 0x30000000 0x100 (by decide)

/-- Bits of `m` absent from `e` are unaffected when `e` is or-ed into the
flag word. -/
lemma hasFlag_or_left (f e m : Nat) (h : e &&& m = 0) :
    hasFlag (f ||| e) m = hasFlag f m := by
  unfold hasFlag
  rw [Nat.and_distrib_right, h, Nat.or_zero]

/-- If an or of naturals is zero, so is its right operand. -/
lemma or_right_eq_zero {a b : Nat} (h : a ||| b = 0) : b = 0 := by
  apply Nat.eq_of_testBit_eq
  intro i
  have hb := congrArg (fun n => n.testBit i) h
  simp only [Nat.testBit_or, Nat.zero_testBit, Bool.or_eq_false_iff] at hb
  simp [hb.2]

/-- Or-ing a nonzero mask into the flag word sets it. -/
lemma hasFlag_or_same (f m : Nat) (hm : m ≠ 0) : hasFlag (f ||| m) m = true := by
  unfold hasFlag
  rw [Nat.and_distrib_right, Nat.and_self]
  simp only [bne_iff_ne, ne_eq]
  intro hc
  exact hm (or_right_eq_zero hc)

/-- Passing the permission check with `MEM_CHECK_MPU_READ` added implies
passing it without. -/
lemma permCheck_or_read (attr : MemAttrInfo) (flags : Nat)
    (h : permCheck attr (flags ||| MEM_CHECK_MPU_READ) = true) :
    permCheck attr flags = true := by
  have h1 : hasFlag (flags ||| MEM_CHECK_MPU_READ) MEM_CHECK_MPU_UNPRIV =
      hasFlag flags MEM_CHECK_MPU_UNPRIV := hasFlag_or_left _ _ _ (by decide)
  have h2 : hasFlag (flags ||| MEM_CHECK_MPU_READ) MEM_CHECK_MPU_READWRITE =
      hasFlag flags MEM_CHECK_MPU_READWRITE := hasFlag_or_left _ _ _ (by decide)
  have h3 : hasFlag (flags ||| MEM_CHECK_MPU_READ) MEM_CHECK_MPU_READ = true :=
    hasFlag_or_same _ _ (by decide)
  unfold permCheck permRd permWr at h ⊢
  rw [h1, h2, h3] at h
  by_cases hrw : hasFlag flags MEM_CHECK_MPU_READWRITE = true <;>
    by_cases hrd : hasFlag flags MEM_CHECK_MPU_READ = true <;>
      simp_all

/-- Passing the permission check with `MEM_CHECK_MPU_READWRITE` added implies
passing it without. -/
lemma permCheck_or_rw (attr : MemAttrInfo) (flags : Nat)
    (h : permCheck attr (flags ||| MEM_CHECK_MPU_READWRITE) = true) :
    permCheck attr flags = true := by
  have h1 : hasFlag (flags ||| MEM_CHECK_MPU_READWRITE) MEM_CHECK_MPU_UNPRIV =
      hasFlag flags MEM_CHECK_MPU_UNPRIV := hasFlag_or_left _ _ _ (by decide)
  have h2 : hasFlag (flags ||| MEM_CHECK_MPU_READWRITE) MEM_CHECK_MPU_READ =
      hasFlag flags MEM_CHECK_MPU_READ := hasFlag_or_left _ _ _ (by decide)
  have h3 : hasFlag (flags ||| MEM_CHECK_MPU_READWRITE) MEM_CHECK_MPU_READWRITE = true :=
    hasFlag_or_same _ _ (by decide)
  unfold permCheck permRd permWr at h ⊢
  rw [h1, h2, h3] at h
  by_cases hrw : hasFlag flags MEM_CHECK_MPU_READWRITE = true <;>
    by_cases hrd : hasFlag flags MEM_CHECK_MPU_READ = true <;>
      simp_all

/-- Adding flag bits that neither request a non-secure check nor change the
privilege level, and whose permission requirement only strengthens the check,
preserves a denial. -/
lemma access_denied_or_extra (L : MemLayout) (p s flags extra : Nat)
    (hAU : extra &&& MEM_CHECK_AU_NONSECURE = 0)
    (hMN : extra &&& MEM_CHECK_MPU_NONSECURE = 0)
    (hperm : ∀ attr, permCheck attr (flags ||| extra) = true → permCheck attr flags = true)
    (h : tfm_has_access_to_region L p s flags = .errorGeneric) :
    tfm_has_access_to_region L p s (flags ||| extra) = .errorGeneric := by
  unfold tfm_has_access_to_region at h ⊢
  rw [hasFlag_or_left flags extra _ hAU, hasFlag_or_left flags extra _ hMN]
  split at h
  · rename_i hns
    rw [if_pos hns]
    split at h
    · rename_i hv; rw [if_pos hv]
    · rename_i hv
      rw [if_neg hv]
      split at h
      · rename_i hsec; rw [if_pos hsec]
      · rename_i hsec
        rw [if_neg hsec]
        split at h
        · rename_i hav; rw [if_pos hav]
        · rename_i hav
          rw [if_neg hav]
          split at h
          · exact (SpmResult.noConfusion h)
          · rename_i hpc
            rw [if_neg (fun hc => hpc (hperm _ hc))]
  · rename_i hns
    rw [if_neg hns]
    split at h
    · rename_i hv; rw [if_pos hv]
    · rename_i hv
      rw [if_neg hv]
      split at h
      · exact (SpmResult.noConfusion h)
      · rename_i hpc
        rw [if_neg (fun hc => hpc (hperm _ hc))]

/-- Claim C1 (amended): per the header contract, `tfm_has_access_to_region`
distinguishes only Allowed (`SPM_SUCCESS`) from not-allowed
(`SPM_ERROR_GENERIC`): the result is always one of these two codes, so a
policy denial and an unmatched-range error are not distinguishable. -/
theorem c1_check_access_two_outcomes :
    ∀ (L : MemLayout) (p s flags : Nat),
      tfm_has_access_to_region L p s flags = .success ∨
      tfm_has_access_to_region L p s flags = .errorGeneric := by
  intro L p s flags
  unfold tfm_has_access_to_region
  repeat' first
  | (exact Or.inl rfl)
  | (exact Or.inr rfl)
  | split

/-- A layout with one non-secure region whose permission entry allows
nothing: requests on it fail as policy denials, requests outside every
region fail as unmatched ranges. -/
def c1Layout : MemLayout :=
  { secMap := [⟨0x1000, 0x100, false⟩], sPerm := [],
    nsPerm := [⟨0x1000, 0x100, true, false, false, false, false⟩] }

/-- Counterexample to claim C1 as stated: a policy denial (the range is a
valid non-secure region with a valid permission entry, but read permission
is refused) and an unmatched-range error return the *same* result code
`SPM_ERROR_GENERIC`, so no caller can tell a Denied verdict apart from an
error by branching on the result. -/
theorem c1_check_access_verdict_counterexample :
    (tfm_get_mem_region_security_attr c1Layout.secMap 0x1000 0x10).is_valid = true ∧
    (tfm_get_ns_mem_region_attr c1Layout 0x1000 0x10).is_valid = true ∧
    tfm_has_access_to_region c1Layout 0x1000 0x10
        (MEM_CHECK_NONSECURE ||| MEM_CHECK_MPU_READ) = .errorGeneric ∧
    (tfm_get_mem_region_security_attr c1Layout.secMap 0x5000 0x10).is_valid = false ∧
    tfm_has_access_to_region c1Layout 0x5000 0x10
        (MEM_CHECK_NONSECURE ||| MEM_CHECK_MPU_READ) =
      tfm_has_access_to_region c1Layout 0x1000 0x10
        (MEM_CHECK_NONSECURE ||| MEM_CHECK_MPU_READ) := by
  decide

/-- Claim C4 (amended): adding `MEM_CHECK_MPU_READ` or
`MEM_CHECK_MPU_READWRITE` — the bits that only add permission requirements —
never turns a denial into an allow.  (Adding a bit that flips the
secure/non-secure expectation or the privilege level can, see the
counterexample.) -/
theorem c4_check_access_monotone_amended (L : MemLayout) (p s flags extra : Nat)
    (hx : extra = MEM_CHECK_MPU_READ ∨ extra = MEM_CHECK_MPU_READWRITE)
    (h : tfm_has_access_to_region L p s flags = .errorGeneric) :
    tfm_has_access_to_region L p s (flags ||| extra) = .errorGeneric := by
  rcases hx with he | he <;> subst he
  · exact access_denied_or_extra L p s flags _ (by decide) (by decide)
      (fun attr => permCheck_or_read attr flags) h
  · exact access_denied_or_extra L p s flags _ (by decide) (by decide)
      (fun attr => permCheck_or_rw attr flags) h

/-- Witness for the amended C4 at a concrete denied input. -/
theorem c4_check_access_monotone_amended_witness :
    tfm_has_access_to_region c1Layout 0x1000 0x10
      (MEM_CHECK_NONSECURE ||| MEM_CHECK_MPU_READ ||| MEM_CHECK_MPU_READWRITE) =
      .errorGeneric :=
  c4_check_access_monotone_amended c1Layout 0x1000 0x10
    (MEM_CHECK_NONSECURE ||| MEM_CHECK_MPU_READ) MEM_CHECK_MPU_READWRITE
    (Or.inr rfl) (by decide)

/-- A layout with a non-secure region readable through the non-secure
permission table but absent from the secure permission table. -/
def c4LayoutNS : MemLayout :=
  { secMap := [⟨0x1000, 0x100, false⟩], sPerm := [],
    nsPerm := [⟨0x1000, 0x100, false, true, true, true, true⟩] }

/-- A layout whose secure permission entry allows unprivileged but not
privileged reads. -/
def c4LayoutUP : MemLayout :=
  { secMap := [], sPerm := [⟨0x1000, 0x100, false, false, false, true, true⟩],
    nsPerm := [] }

/-- Counterexample to claim C4 as stated: the check is not monotone in the
flags.  Adding `MEM_CHECK_AU_NONSECURE` (which flips the secure/non-secure
expectation and the resolver consulted) or `MEM_CHECK_MPU_UNPRIV` (which
flips the privilege level consulted) turns a denial into an allow. -/
theorem c4_check_access_monotone_counterexample :
    tfm_has_access_to_region c4LayoutNS 0x1000 0x10 MEM_CHECK_MPU_READ =
        .errorGeneric ∧
    tfm_has_access_to_region c4LayoutNS 0x1000 0x10
        (MEM_CHECK_MPU_READ ||| MEM_CHECK_AU_NONSECURE) = .success ∧
    tfm_has_access_to_region c4LayoutUP 0x1000 0x10 MEM_CHECK_MPU_READ =
        .errorGeneric ∧
    tfm_has_access_to_region c4LayoutUP 0x1000 0x10
        (MEM_CHECK_MPU_READ ||| MEM_CHECK_MPU_UNPRIV) = .success := by
  decide

/-- The two non-secure request bits and their union drive the check through
the same classify-then-resolve path, so the three checks coincide. -/
lemma ns_flag_checks_equal (L : MemLayout) (p s : Nat) :
    tfm_has_access_to_region L p s MEM_CHECK_AU_NONSECURE =
      tfm_has_access_to_region L p s MEM_CHECK_NONSECURE ∧
    tfm_has_access_to_region L p s MEM_CHECK_MPU_NONSECURE =
      tfm_has_access_to_region L p s MEM_CHECK_NONSECURE :=
  ⟨rfl, rfl⟩

/-- Claim C7: `MEM_CHECK_NONSECURE` is exactly the bitwise union of
`MEM_CHECK_AU_NONSECURE` and `MEM_CHECK_MPU_NONSECURE`, and a check
requesting `MEM_CHECK_NONSECURE` succeeds only when the `AU_NONSECURE` check
and the `MPU_NONSECURE` check both individually succeed. -/
theorem c7_nonsecure_flag_conjunction (L : MemLayout) (p s : Nat)
    (h : tfm_has_access_to_region L p s MEM_CHECK_NONSECURE = .success) :
    MEM_CHECK_NONSECURE = MEM_CHECK_AU_NONSECURE ||| MEM_CHECK_MPU_NONSECURE ∧
    tfm_has_access_to_region L p s MEM_CHECK_AU_NONSECURE = .success ∧
    tfm_has_access_to_region L p s MEM_CHECK_MPU_NONSECURE = .success :=
  ⟨rfl, (ns_flag_checks_equal L p s).1.trans h, (ns_flag_checks_equal L p s).2.trans h⟩

/-- Witness for C7 at a concrete layout where the non-secure check
succeeds. -/
theorem c7_nonsecure_flag_conjunction_witness :
    tfm_has_access_to_region c4LayoutNS 0x1000 0x10 MEM_CHECK_AU_NONSECURE =
        .success ∧
    tfm_has_access_to_region c4LayoutNS 0x1000 0x10 MEM_CHECK_MPU_NONSECURE =
        .success :=
  ⟨(c7_nonsecure_flag_conjunction c4LayoutNS 0x1000 0x10 (by decide)).2.1,
   (c7_nonsecure_flag_conjunction c4LayoutNS 0x1000 0x10 (by decide)).2.2⟩

/-! ## Part 2 continued: the client-identity registry

`CLIENT_ID_OWNER_MAGIC` comes from the header (line 24); owners are opaque
pointers modelled as numeric values, the null pointer being 0. -/

/-- `CLIENT_ID_OWNER_MAGIC` (header line 24): the reserved sentinel owner
value `(void *)0xFFFFFFFF` marking an unregistered slot. -/
def CLIENT_ID_OWNER_MAGIC : Nat := 0xFFFFFFFF

/-- The null owner pointer. -/
def nullOwner : Nat := 0

/-- Modelled from the spec (§4.4): an owner is valid when it is neither null
nor the reserved sentinel. -/
def validOwner (o : Nat) : Bool :=
  decide (o ≠ nullOwner) && decide (o ≠ CLIENT_ID_OWNER_MAGIC)

/-- Modelled from the spec (§3 ClientIdRange): one slot of
`ns_mailbox_client_id_info[]` — a statically configured client ID range for
a mailbox interrupt source, plus the owner bound to it (initially the
sentinel). -/
structure ClientIdRange where
  irq_source : Nat
  id_low : Int
  id_high : Int
  owner : Nat
deriving DecidableEq

/-- Spec-level result taxonomy of `register_range` (§4.4, §7). -/
inductive RegResult where
  | success
  | invalidOwner
  | notFound
  | alreadyRegistered
deriving DecidableEq

/-- The header's mapping of the spec-level registration results onto the
closed result enumeration: `SPM_ERROR_BAD_PARAMETERS` if the owner is
invalid, `SPM_ERROR_GENERIC` for the other failures (header lines 146-149). -/
def regResultToSpm : RegResult → SpmResult
  | .success => .success
  | .invalidOwner => .errorBadParameters
  | .notFound => .errorGeneric
  | .alreadyRegistered => .errorGeneric

/-- Modelled from the spec (§4.4): the scan of the slot table performed by
registration — the first slot whose static `irq_source` matches decides the
outcome: `alreadyRegistered` if its owner is no longer the sentinel,
otherwise the owner is bound to it. -/
def registerScan (own irq : Nat) : List ClientIdRange → RegResult × List ClientIdRange
  | [] => (.notFound, [])
  | r :: rest =>
    if r.irq_source = irq then
      if r.owner = CLIENT_ID_OWNER_MAGIC then
        (.success, { r with owner := own } :: rest)
      else (.alreadyRegistered, r :: rest)
    else
      ((registerScan own irq rest).1, r :: (registerScan own irq rest).2)

/-- Modelled from the spec (§4.4): `tfm_multi_core_register_client_id_range`
— the body is absent from the provided sources.  Fails with `invalidOwner`
(the header's `SPM_ERROR_BAD_PARAMETERS`) without touching the table when
the owner is null or the sentinel; otherwise scans for the slot of
`irq_source`. -/
def tfm_multi_core_register_client_id_range (g : List ClientIdRange)
    (own irq : Nat) : RegResult × List ClientIdRange :=
  if validOwner own = true then registerScan own irq g else (.invalidOwner, g)

/-- Spec-level result of `translate` (§4.4): the translated ID is only
defined on success. -/
inductive TransResult where
  | success (idOut : Int)
  | invalidOwner
  | notFound
  | outOfRange
deriving DecidableEq

/-- Whether a translation result is a success. -/
def TransResult.isSuccess : TransResult → Bool
  | .success _ => true
  | _ => false

/-- The translated ID carried by a successful result (0 otherwise; the
contract leaves the output undefined on failure). -/
def TransResult.getOut : TransResult → Int
  | .success x => x
  | _ => 0

/-- Modelled from the spec (§4.4): the offset scheme chosen for `translate`
— reflect `[id_low, id_high]` injectively below `id_low` into the
secure-side identifier space, so outputs never collide with the declared
non-secure range. -/
def translateOut (r : ClientIdRange) (idIn : Int) : Int :=
  2 * r.id_low - 1 - idIn

/-- Modelled from the spec (§4.4): `tfm_multi_core_hal_client_id_translate`
— the body is absent from the provided sources.  Rejects invalid owners,
looks up the slot bound to the owner, rejects IDs outside the slot's
declared range, and otherwise applies the deterministic injective offset
scheme. -/
def tfm_multi_core_hal_client_id_translate (g : List ClientIdRange)
    (own : Nat) (idIn : Int) : TransResult :=
  if validOwner own = true then
    match g.find? (fun r => decide (r.owner = own)) with
    | none => .notFound
    | some r =>
      if idIn < r.id_low ∨ r.id_high < idIn then .outOfRange
      else .success (translateOut r idIn)
  else .invalidOwner

/-- Claim C6: registration fails with `InvalidOwner` — mapped to the
bad-parameters result — whenever the owner is null or equals the reserved
sentinel `CLIENT_ID_OWNER_MAGIC`, and in that case no slot binding
changes. -/
theorem c6_register_invalid_owner (g : List ClientIdRange) (o irq : Nat)
    (h : o = nullOwner ∨ o = CLIENT_ID_OWNER_MAGIC) :
    tfm_multi_core_register_client_id_range g o irq = (.invalidOwner, g) ∧
    regResultToSpm (tfm_multi_core_register_client_id_range g o irq).1 =
      .errorBadParameters := by
  have hv : validOwner o = false := by
    rcases h with h | h <;> subst h <;> simp [validOwner, nullOwner, CLIENT_ID_OWNER_MAGIC]
  unfold tfm_multi_core_register_client_id_range
  rw [hv]
  exact ⟨by simp, rfl⟩

/-- Witness for C6: registering the sentinel owner itself is rejected as
bad parameters and leaves the table unchanged. -/
theorem c6_register_invalid_owner_witness :
    tfm_multi_core_register_client_id_range
        [⟨5, 1, 4, CLIENT_ID_OWNER_MAGIC⟩] CLIENT_ID_OWNER_MAGIC 5 =
      (.invalidOwner, [⟨5, 1, 4, CLIENT_ID_OWNER_MAGIC⟩]) ∧
    regResultToSpm
        (tfm_multi_core_register_client_id_range
          [⟨5, 1, 4, CLIENT_ID_OWNER_MAGIC⟩] CLIENT_ID_OWNER_MAGIC 5).1 =
      .errorBadParameters :=
  c6_register_invalid_owner [⟨5, 1, 4, CLIENT_ID_OWNER_MAGIC⟩]
    CLIENT_ID_OWNER_MAGIC 5 (Or.inr rfl)

/-- On an in-range ID of the slot bound to a valid owner, `translate`
succeeds with the offset-scheme output. -/
lemma translate_success_formula (g : List ClientIdRange) (o : Nat) (r : ClientIdRange)
    (ho : validOwner o = true)
    (hfind : g.find? (fun t => decide (t.owner = o)) = some r)
    (a : Int) (h1 : r.id_low ≤ a) (h2 : a ≤ r.id_high) :
    tfm_multi_core_hal_client_id_translate g o a =
      .success (2 * r.id_low - 1 - a) := by
  unfold tfm_multi_core_hal_client_id_translate
  rw [if_pos ho]
  simp only [hfind]
  rw [if_neg (by omega)]
  rfl

/-- Claim C5: `translate` is injective per registered slot — for all distinct
client IDs within the slot's declared `[id_low, id_high]` range the
translated results differ — and total over the declared range: every
in-range ID translates successfully. -/
theorem c5_translate_injective_total (g : List ClientIdRange) (o : Nat)
    (r : ClientIdRange) (ho : validOwner o = true)
    (hfind : g.find? (fun t => decide (t.owner = o)) = some r) :
    (∀ a b : Int, r.id_low ≤ a → a ≤ r.id_high → r.id_low ≤ b → b ≤ r.id_high →
        a ≠ b →
        tfm_multi_core_hal_client_id_translate g o a ≠
          tfm_multi_core_hal_client_id_translate g o b) ∧
    (∀ a : Int, r.id_low ≤ a → a ≤ r.id_high →
        (tfm_multi_core_hal_client_id_translate g o a).isSuccess = true) := by
  constructor
  · intro a b ha1 ha2 hb1 hb2 hne
    rw [translate_success_formula g o r ho hfind a ha1 ha2,
      translate_success_formula g o r ho hfind b hb1 hb2]
    intro hc
    injection hc with hc
    omega
  · intro a h1 h2
    rw [translate_success_formula g o r ho hfind a h1 h2]
    rfl

/-- Claim C8: for the slot bound to a valid owner, `translate` fails with
`OutOfRange` on every ID outside `[id_low, id_high]`, and on every in-range
ID it succeeds with an output lying outside `[id_low, id_high]`. -/
theorem c8_translate_out_of_range (g : List ClientIdRange) (o : Nat)
    (r : ClientIdRange) (ho : validOwner o = true)
    (hfind : g.find? (fun t => decide (t.owner = o)) = some r) :
    (∀ idIn : Int, idIn < r.id_low ∨ r.id_high < idIn →
        tfm_multi_core_hal_client_id_translate g o idIn = .outOfRange) ∧
    (∀ idIn : Int, r.id_low ≤ idIn → idIn ≤ r.id_high →
        (tfm_multi_core_hal_client_id_translate g o idIn).isSuccess = true ∧
        ((tfm_multi_core_hal_client_id_translate g o idIn).getOut < r.id_low ∨
          r.id_high < (tfm_multi_core_hal_client_id_translate g o idIn).getOut)) := by
  constructor
  · intro idIn hout
    unfold tfm_multi_core_hal_client_id_translate
    rw [if_pos ho]
    simp only [hfind]
    rw [if_pos hout]
  · intro idIn h1 h2
    rw [translate_success_formula g o r ho hfind idIn h1 h2]
    refine ⟨rfl, ?_⟩
    simp only [TransResult.getOut]
    omega

/-- The spec §8 scenario slot `{irq_source = 5, id_low = 1, id_high = 4}`,
initially unregistered. -/
def scenarioRegistry : List ClientIdRange := [⟨5, 1, 4, CLIENT_ID_OWNER_MAGIC⟩]

/-- The non-secure client playing `ownerA` in the spec §8 scenario. -/
def ownerA : Nat := 0xA0

/-- The scenario registry after `ownerA` registered interrupt source 5. -/
def scenarioRegistered : List ClientIdRange :=
  (tfm_multi_core_register_client_id_range scenarioRegistry ownerA 5).2

/-- Witness for C8 at the spec §8 scenario: `translate(ownerA, 9)` is out of
range, `translate(ownerA, 3)` succeeds with a value outside `[1, 4]`. -/
theorem c8_translate_out_of_range_witness :
    tfm_multi_core_hal_client_id_translate scenarioRegistered ownerA 9 =
        .outOfRange ∧
    (tfm_multi_core_hal_client_id_translate scenarioRegistered ownerA 3).isSuccess =
        true ∧
    ((tfm_multi_core_hal_client_id_translate scenarioRegistered ownerA 3).getOut < 1 ∨
      (4 : Int) <
        (tfm_multi_core_hal_client_id_translate scenarioRegistered ownerA 3).getOut) := by
  have h := c8_translate_out_of_range scenarioRegistered ownerA ⟨5, 1, 4, ownerA⟩
    (by decide) (by decide)
  exact ⟨h.1 9 (Or.inr (by decide)), (h.2 3 (by decide) (by decide)).1,
    (h.2 3 (by decide) (by decide)).2⟩

/-- A registry whose single slot `{irq_source = 7, id_low = 10, id_high = 20}`
is bound to a concrete owner. -/
def c5Registry : List ClientIdRange := [⟨7, 10, 20, 0xB0⟩]

/-- Witness for C5: two distinct in-range IDs translate to different
results, and an in-range ID translates successfully. -/
theorem c5_translate_injective_total_witness :
    tfm_multi_core_hal_client_id_translate c5Registry 0xB0 10 ≠
      tfm_multi_core_hal_client_id_translate c5Registry 0xB0 11 ∧
    (tfm_multi_core_hal_client_id_translate c5Registry 0xB0 12).isSuccess = true := by
  have h := c5_translate_injective_total c5Registry 0xB0 ⟨7, 10, 20, 0xB0⟩
    (by decide) (by decide)
  exact ⟨h.1 10 11 (by decide) (by decide) (by decide) (by decide) (by decide),
    h.2 12 (by decide) (by decide)⟩

/-- Applying a sequence of registration calls `(owner, irq_source)` to the
registry, threading the table state. -/
def applyOps : List ClientIdRange → List (Nat × Nat) → List ClientIdRange
  | g, [] => g
  | g, op :: rest =>
    applyOps (tfm_multi_core_register_client_id_range g op.1 op.2).2 rest

/-- A slot of interrupt source `i` bound to a real (non-sentinel) owner. -/
def slotBound (i : Nat) (r : ClientIdRange) : Bool :=
  decide (r.irq_source = i) && decide (r.owner ≠ CLIENT_ID_OWNER_MAGIC)

/-- How many slots of interrupt source `i` are bound to a real owner. -/
def boundCount (g : List ClientIdRange) (i : Nat) : Nat :=
  (g.filter (slotBound i)).length

/-- The slot-scan predicate: does this slot declare interrupt source `i`? -/
def irqMatch (i : Nat) (r : ClientIdRange) : Bool := decide (r.irq_source = i)

/-- The first slot declaring interrupt source `i` exists and is bound to a
real owner. -/
def firstMatchBound (g : List ClientIdRange) (i : Nat) : Prop :=
  ∃ r, g.find? (irqMatch i) = some r ∧ r.owner ≠ CLIENT_ID_OWNER_MAGIC

/-- A valid owner is not the sentinel. -/
lemma validOwner_ne_magic {o : Nat} (h : validOwner o = true) :
    o ≠ CLIENT_ID_OWNER_MAGIC := by
  unfold validOwner at h
  exact of_decide_eq_true ((Bool.and_eq_true _ _).mp h).2

/-- The scan either leaves the table unchanged (not-found or
already-registered) or binds the owner into the first slot matching the
interrupt source, which held the sentinel. -/
lemma scan_cases (own irq : Nat) (g : List ClientIdRange) :
    ((registerScan own irq g).2 = g ∧
      ((registerScan own irq g).1 = .notFound ∨
        (registerScan own irq g).1 = .alreadyRegistered)) ∨
    ∃ l1 r l2, g = l1 ++ r :: l2 ∧ r.irq_source = irq ∧
      r.owner = CLIENT_ID_OWNER_MAGIC ∧ (∀ t ∈ l1, t.irq_source ≠ irq) ∧
      (registerScan own irq g).2 =
        l1 ++ ({ r with owner := own } : ClientIdRange) :: l2 ∧
      (registerScan own irq g).1 = .success := by
  induction g with
  | nil => exact Or.inl ⟨rfl, Or.inl rfl⟩
  | cons r rest ih =>
    by_cases hirq : r.irq_source = irq
    · by_cases hmag : r.owner = CLIENT_ID_OWNER_MAGIC
      · refine Or.inr ⟨[], r, rest, rfl, hirq, hmag, by simp, ?_, ?_⟩
        · simp [registerScan, hirq, hmag]
        · simp [registerScan, hirq, hmag]
      · refine Or.inl ⟨?_, Or.inr ?_⟩ <;> simp [registerScan, hirq, hmag]
    · rcases ih with ⟨h2, h1⟩ | ⟨l1, r0, l2, hg, hi, hm, hl1, h2, h1⟩
      · refine Or.inl ⟨?_, ?_⟩
        · simp [registerScan, hirq, h2]
        · simpa [registerScan, hirq] using h1
      · refine Or.inr ⟨r :: l1, r0, l2, by rw [hg]; rfl, hi, hm, ?_, ?_, ?_⟩
        · intro t ht
          rcases List.mem_cons.mp ht with he | he
          · subst he; exact hirq
          · exact hl1 t he
        · simp [registerScan, hirq, h2]
        · simp [registerScan, hirq, h1]

/-- `find?` skips a prefix on which the predicate never holds. -/
lemma find?_append_left_none {α : Type} (p : α → Bool) {l1 : List α}
    (h : ∀ t ∈ l1, ¬ p t = true) (l2 : List α) :
    (l1 ++ l2).find? p = l2.find? p := by
  rw [List.find?_append, List.find?_eq_none.mpr h]
  rfl

/-- Rebinding the owner of a slot of a different interrupt source does not
change which slot the scan for `i` finds. -/
lemma find?_irq_subst {l1 l2 : List ClientIdRange} {r : ClientIdRange}
    (own i : Nat) (hne : r.irq_source ≠ i) :
    (l1 ++ ({ r with owner := own } : ClientIdRange) :: l2).find? (irqMatch i) =
      (l1 ++ r :: l2).find? (irqMatch i) := by
  rw [List.find?_append, List.find?_append,
    List.find?_cons_of_neg _ (by simp [irqMatch, hne]),
    List.find?_cons_of_neg _ (by simp [irqMatch, hne])]

/-- After binding a real owner into the first slot matching `irq`, that
first match is bound. -/
lemma fmb_of_after_success {own irq : Nat} (hown : own ≠ CLIENT_ID_OWNER_MAGIC)
    {l1 : List ClientIdRange} {r : ClientIdRange} {l2 : List ClientIdRange}
    (hl1 : ∀ t ∈ l1, t.irq_source ≠ irq) (hi : r.irq_source = irq) :
    firstMatchBound (l1 ++ ({ r with owner := own } : ClientIdRange) :: l2) irq := by
  refine ⟨{ r with owner := own }, ?_, hown⟩
  rw [find?_append_left_none _ (fun t ht => by simp [irqMatch]; exact hl1 t ht),
    List.find?_cons_of_pos _ (by simp [irqMatch, hi])]

/-- The registration either leaves the table unchanged or substitutes a
real owner into the sentinel-owned first matching slot. -/
lemma register_cases (g : List ClientIdRange) (o j : Nat) :
    (tfm_multi_core_register_client_id_range g o j).2 = g ∨
    (validOwner o = true ∧ ∃ l1 r l2, g = l1 ++ r :: l2 ∧ r.irq_source = j ∧
      r.owner = CLIENT_ID_OWNER_MAGIC ∧ (∀ t ∈ l1, t.irq_source ≠ j) ∧
      (tfm_multi_core_register_client_id_range g o j).2 =
        l1 ++ ({ r with owner := o } : ClientIdRange) :: l2) := by
  unfold tfm_multi_core_register_client_id_range
  by_cases hv : validOwner o = true
  · rw [if_pos hv]
    rcases scan_cases o j g with ⟨h2, _⟩ | ⟨l1, r, l2, hg, hi, hm, hl1, h2, _⟩
    · exact Or.inl h2
    · exact Or.inr ⟨hv, l1, r, l2, hg, hi, hm, hl1, h2⟩
  · rw [if_neg hv]; exact Or.inl rfl

/-- A bound first match stays bound across any further registration. -/
lemma fmb_register_preserved {g : List ClientIdRange} {i : Nat}
    (h : firstMatchBound g i) (o j : Nat) :
    firstMatchBound (tfm_multi_core_register_client_id_range g o j).2 i := by
  rcases register_cases g o j with h2 | ⟨hv, l1, r, l2, hg, hi, hm, hl1, h2⟩
  · rwa [h2]
  · by_cases hij : i = j
    · subst hij
      exfalso
      obtain ⟨r0, hfind, hbound⟩ := h
      rw [hg, find?_append_left_none _ (fun t ht => by
            simp [irqMatch]; exact hl1 t ht),
        List.find?_cons_of_pos _ (by simp [irqMatch, hi])] at hfind
      injection hfind with he
      subst he
      exact hbound hm
    · obtain ⟨r0, hfind, hbound⟩ := h
      refine ⟨r0, ?_, hbound⟩
      rw [h2, find?_irq_subst o i (by rw [hi]; exact Ne.symm hij), ← hg]
      exact hfind

/-- When the first slot matching `i` is bound, the scan reports
already-registered and changes nothing. -/
lemma scan_already_of_fmb (b i : Nat) :
    ∀ g : List ClientIdRange, ∀ r0 : ClientIdRange,
      g.find? (irqMatch i) = some r0 → r0.owner ≠ CLIENT_ID_OWNER_MAGIC →
      registerScan b i g = (.alreadyRegistered, g)
  | [], r0, hfind, _ => by simp at hfind
  | r :: rest, r0, hfind, hbound => by
    by_cases hm : irqMatch i r = true
    · have hirq : r.irq_source = i := of_decide_eq_true hm
      rw [List.find?_cons_of_pos _ hm] at hfind
      injection hfind with he
      subst he
      simp [registerScan, hirq, hbound]
    · have hirq : ¬ r.irq_source = i := by simpa [irqMatch] using hm
      rw [List.find?_cons_of_neg _ hm] at hfind
      have ih := scan_already_of_fmb b i rest r0 hfind hbound
      simp [registerScan, hirq, ih]

/-- A later registration of a bound interrupt source by any valid owner
fails with already-registered and changes nothing. -/
lemma register_already_of_fmb {g : List ClientIdRange} {i : Nat}
    (h : firstMatchBound g i) {b : Nat} (hb : validOwner b = true) :
    tfm_multi_core_register_client_id_range g b i = (.alreadyRegistered, g) := by
  obtain ⟨r0, hfind, hbound⟩ := h
  unfold tfm_multi_core_register_client_id_range
  rw [if_pos hb, scan_already_of_fmb b i g r0 hfind hbound]

/-- A bound first match stays bound across any sequence of registrations. -/
lemma fmb_applyOps {g : List ClientIdRange} {i : Nat} (h : firstMatchBound g i) :
    ∀ ops : List (Nat × Nat), firstMatchBound (applyOps g ops) i := by
  intro ops
  induction ops generalizing g with
  | nil => simpa [applyOps] using h
  | cons op rest ih =>
    simp only [applyOps]
    exact ih (fmb_register_preserved h op.1 op.2)

/-- The registry invariant: every interrupt source is bound in at most one
slot, and when it is bound, the bound slot is the first matching one. -/
def RegInv (g : List ClientIdRange) : Prop :=
  ∀ i : Nat, boundCount g i ≤ 1 ∧ (boundCount g i = 1 → firstMatchBound g i)

lemma boundCount_append (l1 l2 : List ClientIdRange) (i : Nat) :
    boundCount (l1 ++ l2) i = boundCount l1 i + boundCount l2 i := by
  unfold boundCount
  rw [List.filter_append, List.length_append]

lemma boundCount_cons_unbound {r : ClientIdRange} {i : Nat}
    (h : slotBound i r = false) (l : List ClientIdRange) :
    boundCount (r :: l) i = boundCount l i := by
  unfold boundCount
  rw [List.filter_cons_of_neg (by simp [h])]

lemma boundCount_cons_bound {r : ClientIdRange} {i : Nat}
    (h : slotBound i r = true) (l : List ClientIdRange) :
    boundCount (r :: l) i = boundCount l i + 1 := by
  unfold boundCount
  rw [List.filter_cons_of_pos h, List.length_cons]

lemma boundCount_all_unbound {l : List ClientIdRange} {i : Nat}
    (h : ∀ t ∈ l, slotBound i t = false) : boundCount l i = 0 := by
  unfold boundCount
  rw [List.length_eq_zero, List.filter_eq_nil_iff]
  intro a ha
  simp [h a ha]

/-- One registration step preserves the registry invariant. -/
lemma regInv_register (g : List ClientIdRange) (o j : Nat) (h : RegInv g) :
    RegInv (tfm_multi_core_register_client_id_range g o j).2 := by
  rcases register_cases g o j with h2 | ⟨hv, l1, r, l2, hg, hi, hm, hl1, h2⟩
  · rwa [h2]
  · have ho : o ≠ CLIENT_ID_OWNER_MAGIC := validOwner_ne_magic hv
    intro i
    by_cases hij : i = j
    · subst hij
      have hrF : slotBound i r = false := by simp [slotBound, hm]
      have hl1cnt : boundCount l1 i = 0 :=
        boundCount_all_unbound (fun t ht => by simp [slotBound, hl1 t ht])
      have hsplit : boundCount g i = boundCount l1 i + boundCount l2 i := by
        rw [hg, boundCount_append, boundCount_cons_unbound hrF]
      have hnfmb : ¬ firstMatchBound g i := by
        intro hf
        obtain ⟨r0, hfind, hbound⟩ := hf
        rw [hg, find?_append_left_none _ (fun t ht => by
              simp [irqMatch]; exact hl1 t ht),
          List.find?_cons_of_pos _ (by simp [irqMatch, hi])] at hfind
        injection hfind with he
        subst he
        exact hbound hm
      have hcnt0 : boundCount g i = 0 := by
        rcases Nat.lt_or_ge (boundCount g i) 1 with hlt | hge
        · omega
        · exact absurd ((h i).2 (by have := (h i).1; omega)) hnfmb
      have hrT : slotBound i ({ r with owner := o } : ClientIdRange) = true := by
        simp [slotBound, hi, ho]
      refine ⟨?_, fun _ => ?_⟩
      · rw [h2, boundCount_append, boundCount_cons_bound hrT]
        omega
      · rw [h2]
        exact fmb_of_after_success ho hl1 hi
    · have hrF : slotBound i r = false := by
        simp [slotBound, hi]
        intro hc
        exact absurd hc.symm hij
      have hrF' : slotBound i ({ r with owner := o } : ClientIdRange) = false := by
        simp [slotBound, hi]
        intro hc
        exact absurd hc.symm hij
      have hcnt_eq : boundCount (tfm_multi_core_register_client_id_range g o j).2 i =
          boundCount g i := by
        rw [h2, hg, boundCount_append, boundCount_append,
          boundCount_cons_unbound hrF, boundCount_cons_unbound hrF']
      refine ⟨by rw [hcnt_eq]; exact (h i).1, fun h1 => ?_⟩
      obtain ⟨r0, hfind, hbound⟩ := (h i).2 (by rw [← hcnt_eq]; exact h1)
      refine ⟨r0, ?_, hbound⟩
      rw [h2, find?_irq_subst o i (by rw [hi]; exact Ne.symm hij), ← hg]
      exact hfind

/-- The registry invariant is preserved by any sequence of registrations. -/
lemma regInv_applyOps {g : List ClientIdRange} (h : RegInv g) :
    ∀ ops : List (Nat × Nat), RegInv (applyOps g ops) := by
  intro ops
  induction ops generalizing g with
  | nil => simpa [applyOps] using h
  | cons op rest ih =>
    simp only [applyOps]
    exact ih (regInv_register g op.1 op.2 h)

/-- A freshly configured registry — all owners still the sentinel —
satisfies the invariant. -/
lemma regInv_initial {g : List ClientIdRange}
    (hall : ∀ r ∈ g, r.owner = CLIENT_ID_OWNER_MAGIC) : RegInv g := by
  intro i
  have hz : boundCount g i = 0 :=
    boundCount_all_unbound (fun t ht => by simp [slotBound, hall t ht])
  exact ⟨by omega, fun hc => by omega⟩

/-- On a freshly configured registry holding a slot for the interrupt
source, the scan succeeds. -/
lemma scan_success_of_all_magic (own irq : Nat) :
    ∀ g : List ClientIdRange, (∀ r ∈ g, r.owner = CLIENT_ID_OWNER_MAGIC) →
      (∃ r ∈ g, r.irq_source = irq) → (registerScan own irq g).1 = .success
  | [], _, hex => by simp at hex
  | r :: rest, hall, hex => by
    by_cases hirq : r.irq_source = irq
    · simp [registerScan, hirq, hall r (List.mem_cons_self r rest)]
    · have hex2 : ∃ t ∈ rest, t.irq_source = irq := by
        obtain ⟨t, ht, hti⟩ := hex
        rcases List.mem_cons.mp ht with he | he
        · subst he; exact absurd hti hirq
        · exact ⟨t, he, hti⟩
      have ih := scan_success_of_all_magic own irq rest
        (fun t ht => hall t (List.mem_cons_of_mem _ ht)) hex2
      simp [registerScan, hirq, ih]

/-- A successful registration leaves a slot of the interrupt source bound to
the registering owner. -/
lemma register_success_binds {g : List ClientIdRange} {o irq : Nat}
    (hs : (tfm_multi_core_register_client_id_range g o irq).1 = .success) :
    ∃ r ∈ (tfm_multi_core_register_client_id_range g o irq).2,
      r.irq_source = irq ∧ r.owner = o := by
  unfold tfm_multi_core_register_client_id_range at hs ⊢
  by_cases hv : validOwner o = true
  · rw [if_pos hv] at hs ⊢
    rcases scan_cases o irq g with ⟨h2, h1⟩ | ⟨l1, r, l2, hg, hi, hm, hl1, h2, h1⟩
    · rcases h1 with h1 | h1 <;> rw [h1] at hs <;> exact RegResult.noConfusion hs
    · refine ⟨{ r with owner := o }, ?_, hi, rfl⟩
      rw [h2]
      exact List.mem_append_right _ (List.mem_cons_self _ _)
  · rw [if_neg hv] at hs
    exact RegResult.noConfusion hs

/-- After a successful registration, the first slot matching the interrupt
source is bound. -/
lemma register_success_fmb {g : List ClientIdRange} {o irq : Nat}
    (hv : validOwner o = true)
    (hs : (tfm_multi_core_register_client_id_range g o irq).1 = .success) :
    firstMatchBound (tfm_multi_core_register_client_id_range g o irq).2 irq := by
  have ho : o ≠ CLIENT_ID_OWNER_MAGIC := validOwner_ne_magic hv
  unfold tfm_multi_core_register_client_id_range at hs ⊢
  rw [if_pos hv] at hs ⊢
  rcases scan_cases o irq g with ⟨h2, h1⟩ | ⟨l1, r, l2, hg, hi, hm, hl1, h2, h1⟩
  · rcases h1 with h1 | h1 <;> rw [h1] at hs <;> exact RegResult.noConfusion hs
  · rw [h2]
    exact fmb_of_after_success ho hl1 hi

/-- Claim C3 (amended): on a freshly configured registry with a slot for
the interrupt source, the first registration by a valid owner succeeds and
binds the owner; every later registration of the same source by any *valid*
owner — after any further sequence of registrations — fails with
`AlreadyRegistered`; and every interrupt source is bound to a real owner in
at most one slot at any time.  (A later call with an invalid owner fails
with `InvalidOwner` instead, see the counterexample.) -/
theorem c3_register_exactly_once_amended (g0 : List ClientIdRange) (a irq : Nat)
    (hall : ∀ r ∈ g0, r.owner = CLIENT_ID_OWNER_MAGIC)
    (hslot : ∃ r ∈ g0, r.irq_source = irq)
    (ha : validOwner a = true) :
    (tfm_multi_core_register_client_id_range g0 a irq).1 = .success ∧
    (∃ r ∈ (tfm_multi_core_register_client_id_range g0 a irq).2,
        r.irq_source = irq ∧ r.owner = a) ∧
    (∀ ops : List (Nat × Nat), ∀ b : Nat, validOwner b = true →
        (tfm_multi_core_register_client_id_range
            (applyOps (tfm_multi_core_register_client_id_range g0 a irq).2 ops)
            b irq).1 = .alreadyRegistered) ∧
    (∀ ops : List (Nat × Nat), ∀ i : Nat, boundCount (applyOps g0 ops) i ≤ 1) := by
  have hs : (tfm_multi_core_register_client_id_range g0 a irq).1 = .success := by
    unfold tfm_multi_core_register_client_id_range
    rw [if_pos ha]
    exact scan_success_of_all_magic a irq g0 hall hslot
  refine ⟨hs, register_success_binds hs, ?_, ?_⟩
  · intro ops b hb
    have hfmb := fmb_applyOps (register_success_fmb ha hs) ops
    rw [register_already_of_fmb hfmb hb]
  · intro ops i
    exact ((regInv_applyOps (regInv_initial hall) ops) i).1

/-- Counterexample to claim C3 as stated: after `ownerA` registered
interrupt source 5, a later call for the same source with the null owner
does not fail with `AlreadyRegistered` — it fails with `InvalidOwner`, so
"every later call with any owner fails with AlreadyRegistered" is false. -/
theorem c3_register_exactly_once_counterexample :
    (tfm_multi_core_register_client_id_range
        (tfm_multi_core_register_client_id_range scenarioRegistry ownerA 5).2
        nullOwner 5).1 ≠ RegResult.alreadyRegistered ∧
    (tfm_multi_core_register_client_id_range
        (tfm_multi_core_register_client_id_range scenarioRegistry ownerA 5).2
        nullOwner 5).1 = RegResult.invalidOwner := by
  decide

/-- Witness for the amended C3 at the spec §8 scenario: `ownerA` registers
source 5 successfully, a later attempt by another valid owner fails with
`AlreadyRegistered`, and source 5 stays bound in at most one slot. -/
theorem c3_register_exactly_once_witness :
    (tfm_multi_core_register_client_id_range scenarioRegistry ownerA 5).1 =
        RegResult.success ∧
    (tfm_multi_core_register_client_id_range
        (applyOps (tfm_multi_core_register_client_id_range scenarioRegistry ownerA 5).2
          [(0xB0, 5)])
        0xB0 5).1 = RegResult.alreadyRegistered ∧
    boundCount (applyOps scenarioRegistry [(ownerA, 5), (0xB0, 5)]) 5 ≤ 1 := by
  have h := c3_register_exactly_once_amended scenarioRegistry ownerA 5
    (by decide) ⟨⟨5, 1, 4, CLIENT_ID_OWNER_MAGIC⟩, by decide, rfl⟩ (by decide)
  exact ⟨h.1, h.2.2.1 [(0xB0, 5)] 0xB0 (by decide),
    h.2.2.2 [(ownerA, 5), (0xB0, 5)] 5⟩
